import Mathlib

/-!
Verification of the hearing-test staircase controller and tone playback
engine. The staircase controller (`createStaircase`, `processResponse`,
`getCurrentLevel`) is embedded from the repository's staircase module;
the playback-relevant parts (`linearGain`, `stopAll`) from the audio
engine module. Levels are modelled as integers (the program only adds,
subtracts, clamps and compares them).
-/

/-- A user response to a tone presentation. -/
inductive Response
  | heard
  | notHeard
deriving DecidableEq, Repr

/-- The stepping direction of the staircase. -/
inductive Direction
  | down
  | up
deriving DecidableEq, Repr

/-- Configuration of one staircase run (`StaircaseConfig` in the source). -/
structure StaircaseConfig where
  initialLevel : Int
  stepSizeDown : Int
  stepSizeUp : Int
  minLevel : Int
  maxLevel : Int
  maxReversals : Nat
  maxAttempts : Nat
deriving DecidableEq, Repr

/-- Mutable state of one staircase run (`StaircaseState` in the source). -/
structure StaircaseState where
  currentLevel : Int
  stepSize : Int
  direction : Direction
  reversals : Nat
  attempts : Nat
  lastResponse : Option Response
  threshold : Option Int
deriving DecidableEq, Repr

/-- The source's `DEFAULT_CONFIG`. -/
def DEFAULT_CONFIG : StaircaseConfig :=
  { initialLevel := -20
    stepSizeDown := 6
    stepSizeUp := 3
    minLevel := -60
    maxLevel := 0
    maxReversals := 4
    maxAttempts := 20 }

/-- The source's `createStaircase`: the source merges a partial config over
`DEFAULT_CONFIG`; here the already-merged full config is the argument, and
the returned pair mirrors the source's `{ state, config }` object. -/
def createStaircase (config : StaircaseConfig) : StaircaseState × StaircaseConfig :=
  ({ currentLevel := config.initialLevel
     stepSize := config.stepSizeDown
     direction := Direction.down
     reversals := 0
     attempts := 0
     lastResponse := none
     threshold := none }, config)

/-- The record returned by `processResponse`. -/
structure ProcessResult where
  newState : StaircaseState
  shouldContinue : Bool
  threshold : Option Int
deriving DecidableEq, Repr

/-- The source's `processResponse`, step for step: increment attempts and
record the response; terminate at the max-attempts check before any level
update; otherwise update direction/level with clamping, count a reversal
when the direction changed and the input state had a previous response,
and terminate when reversals reach the maximum. -/
def processResponse (state : StaircaseState) (config : StaircaseConfig)
    (response : Response) : ProcessResult :=
  let afterCount : StaircaseState :=
    { state with attempts := state.attempts + 1, lastResponse := some response }
  if afterCount.attempts ≥ config.maxAttempts then
    let terminated : StaircaseState :=
      { afterCount with threshold := some afterCount.currentLevel }
    { newState := terminated, shouldContinue := false, threshold := terminated.threshold }
  else
    let previousDirection := afterCount.direction
    let moved : StaircaseState :=
      match response with
      | Response.heard =>
        { afterCount with
          direction := Direction.down
          currentLevel := max config.minLevel (afterCount.currentLevel - config.stepSizeDown)
          stepSize := config.stepSizeDown }
      | Response.notHeard =>
        { afterCount with
          direction := Direction.up
          currentLevel := min config.maxLevel (afterCount.currentLevel + config.stepSizeUp)
          stepSize := config.stepSizeUp }
    let counted : StaircaseState :=
      if previousDirection ≠ moved.direction ∧ state.lastResponse ≠ none then
        { moved with reversals := moved.reversals + 1 }
      else moved
    if counted.reversals ≥ config.maxReversals then
      let terminated : StaircaseState :=
        { counted with threshold := some counted.currentLevel }
      { newState := terminated, shouldContinue := false, threshold := terminated.threshold }
    else
      { newState := counted, shouldContinue := true, threshold := none }

/-- The source's `getCurrentLevel`. -/
def getCurrentLevel (state : StaircaseState) : Int :=
  state.currentLevel

/-- Feeding a list of responses into the controller, threading the state. -/
def runStaircase (config : StaircaseConfig) (state : StaircaseState) :
    List Response → StaircaseState
  | [] => state
  | r :: rs => runStaircase config (processResponse state config r).newState rs

/-- The direction that a response drives the staircase towards. -/
def responseDirection : Response → Direction
  | Response.heard => Direction.down
  | Response.notHeard => Direction.up

/-- Claim C2: when the incremented attempt count reaches `maxAttempts`,
`processResponse` terminates at once with `shouldContinue = false` and a
threshold equal to the level held before any level update (the level just
presented); in particular the new state's level is still the input level,
showing the check runs before the new level is computed. -/
theorem processResponse_maxAttempts_terminates (s : StaircaseState)
    (config : StaircaseConfig) (r : Response)
    (h : s.attempts + 1 ≥ config.maxAttempts) :
    (processResponse s config r).shouldContinue = false ∧
    (processResponse s config r).threshold = some s.currentLevel ∧
    (processResponse s config r).newState.currentLevel = s.currentLevel := by
  simp [processResponse, h]

theorem processResponse_maxAttempts_terminates_witness :
    (3 : Nat) + 1 ≥ DEFAULT_CONFIG.maxAttempts - 16 ∧
    (processResponse
      { currentLevel := -20, stepSize := 6, direction := Direction.down
        reversals := 0, attempts := 3, lastResponse := none, threshold := none }
      { DEFAULT_CONFIG with maxAttempts := 4 } Response.heard).shouldContinue = false := by
  refine ⟨by decide, ?_⟩
  exact (processResponse_maxAttempts_terminates _ _ _ (by decide)).1

/-- Claim C10: when `processResponse` terminates through the max-attempts
branch, the returned state keeps the input's `currentLevel`, `direction`,
`reversals` and `stepSize` unchanged; only `attempts`, `lastResponse` and
`threshold` are updated. -/
theorem processResponse_maxAttempts_frame (s : StaircaseState)
    (config : StaircaseConfig) (r : Response)
    (h : s.attempts + 1 ≥ config.maxAttempts) :
    (processResponse s config r).newState.currentLevel = s.currentLevel ∧
    (processResponse s config r).newState.direction = s.direction ∧
    (processResponse s config r).newState.reversals = s.reversals ∧
    (processResponse s config r).newState.stepSize = s.stepSize ∧
    (processResponse s config r).newState.attempts = s.attempts + 1 ∧
    (processResponse s config r).newState.lastResponse = some r ∧
    (processResponse s config r).newState.threshold = some s.currentLevel := by
  simp [processResponse, h]

theorem processResponse_maxAttempts_frame_witness :
    (processResponse
      { currentLevel := -14, stepSize := 3, direction := Direction.up
        reversals := 2, attempts := 19, lastResponse := some Response.heard
        threshold := none }
      DEFAULT_CONFIG Response.notHeard).newState.direction = Direction.up := by
  exact (processResponse_maxAttempts_frame _ DEFAULT_CONFIG _ (by decide)).2.1

/-- One `processResponse` step keeps the level inside the safety bounds. -/
theorem processResponse_level_bounds_step (s : StaircaseState)
    (config : StaircaseConfig) (r : Response)
    (hd : 0 < config.stepSizeDown) (hu : 0 < config.stepSizeUp)
    (h1 : config.minLevel ≤ s.currentLevel) (h2 : s.currentLevel ≤ config.maxLevel) :
    config.minLevel ≤ (processResponse s config r).newState.currentLevel ∧
    (processResponse s config r).newState.currentLevel ≤ config.maxLevel := by
  by_cases hA : s.attempts + 1 ≥ config.maxAttempts
  · simp [processResponse, hA]
    omega
  · cases r <;> simp [processResponse, hA] <;> split_ifs <;> simp <;> omega

/-- Running any response list from an in-bounds state stays in bounds. -/
theorem runStaircase_level_bounds_aux (config : StaircaseConfig)
    (hd : 0 < config.stepSizeDown) (hu : 0 < config.stepSizeUp) :
    ∀ (rs : List Response) (s : StaircaseState),
      config.minLevel ≤ s.currentLevel → s.currentLevel ≤ config.maxLevel →
      config.minLevel ≤ (runStaircase config s rs).currentLevel ∧
      (runStaircase config s rs).currentLevel ≤ config.maxLevel
  | [], s, h1, h2 => ⟨h1, h2⟩
  | r :: rs, s, h1, h2 => by
    have hstep := processResponse_level_bounds_step s config r hd hu h1 h2
    exact runStaircase_level_bounds_aux config hd hu rs _ hstep.1 hstep.2

/-- Claim C1: for every valid config (ordered bounds around the initial
level, positive steps) and every response sequence fed from the
initialized state, the current level always lies within
`[minLevel, maxLevel]`. -/
theorem staircase_currentLevel_in_bounds (config : StaircaseConfig)
    (hlo : config.minLevel ≤ config.initialLevel)
    (hhi : config.initialLevel ≤ config.maxLevel)
    (hd : 0 < config.stepSizeDown) (hu : 0 < config.stepSizeUp)
    (rs : List Response) :
    config.minLevel ≤ (runStaircase config (createStaircase config).1 rs).currentLevel ∧
    (runStaircase config (createStaircase config).1 rs).currentLevel ≤ config.maxLevel :=
  runStaircase_level_bounds_aux config hd hu rs (createStaircase config).1 hlo hhi

theorem staircase_currentLevel_in_bounds_witness :
    DEFAULT_CONFIG.minLevel ≤
      (runStaircase DEFAULT_CONFIG (createStaircase DEFAULT_CONFIG).1
        [Response.heard, Response.notHeard, Response.heard]).currentLevel := by
  exact (staircase_currentLevel_in_bounds DEFAULT_CONFIG (by decide) (by decide)
    (by decide) (by decide) [Response.heard, Response.notHeard, Response.heard]).1

/-- The attempt counter after running a response list from a state. -/
theorem runStaircase_attempts_aux (config : StaircaseConfig) :
    ∀ (rs : List Response) (s : StaircaseState),
      (runStaircase config s rs).attempts = s.attempts + rs.length
  | [], s => rfl
  | r :: rs, s => by
    have hstep : (processResponse s config r).newState.attempts = s.attempts + 1 := by
      by_cases hA : s.attempts + 1 ≥ config.maxAttempts
      · simp [processResponse, hA]
      · cases r <;> simp [processResponse, hA] <;> split_ifs <;> simp
    rw [runStaircase, runStaircase_attempts_aux config rs _, hstep, List.length_cons]
    omega

/-- Claim C5: every `processResponse` call increments the attempt counter
by exactly one, so after `k` calls from the initialized state the counter
is `k`; and any call whose incremented counter reaches `maxAttempts`
returns `shouldContinue = false`, so every run terminates (and does so
deterministically, `processResponse` being a function) within
`maxAttempts` calls, at the call where the counter first reaches it. -/
theorem staircase_attempts_increment_and_termination :
    (∀ (s : StaircaseState) (config : StaircaseConfig) (r : Response),
      (processResponse s config r).newState.attempts = s.attempts + 1) ∧
    (∀ (config : StaircaseConfig) (rs : List Response),
      (runStaircase config (createStaircase config).1 rs).attempts = rs.length) ∧
    (∀ (config : StaircaseConfig) (rs : List Response) (r : Response),
      rs.length + 1 ≥ config.maxAttempts →
      (processResponse (runStaircase config (createStaircase config).1 rs) config r).shouldContinue
        = false) := by
  refine ⟨?_, ?_, ?_⟩
  · intro s config r
    by_cases hA : s.attempts + 1 ≥ config.maxAttempts
    · simp [processResponse, hA]
    · cases r <;> simp [processResponse, hA] <;> split_ifs <;> simp
  · intro config rs
    rw [runStaircase_attempts_aux config rs]
    simp [createStaircase]
  · intro config rs r h
    have hats : (runStaircase config (createStaircase config).1 rs).attempts = rs.length := by
      rw [runStaircase_attempts_aux config rs]
      simp [createStaircase]
    have hge : (runStaircase config (createStaircase config).1 rs).attempts + 1
        ≥ config.maxAttempts := by omega
    simp [processResponse, hge]

theorem staircase_attempts_increment_and_termination_witness :
    (processResponse
      (runStaircase DEFAULT_CONFIG (createStaircase DEFAULT_CONFIG).1
        (List.replicate 19 Response.heard))
      DEFAULT_CONFIG Response.heard).shouldContinue = false := by
  exact staircase_attempts_increment_and_termination.2.2 DEFAULT_CONFIG
    (List.replicate 19 Response.heard) Response.heard (by decide)

/-- Claim C9: starting from a state whose threshold is not yet resolved,
`processResponse` reports `shouldContinue = false` exactly when it returns
a threshold, and the returned threshold always equals the threshold stored
in the returned state. -/
theorem processResponse_continue_iff_no_threshold (s : StaircaseState)
    (config : StaircaseConfig) (r : Response) (h : s.threshold = none) :
    ((processResponse s config r).shouldContinue = false ↔
      (processResponse s config r).threshold ≠ none) ∧
    (processResponse s config r).threshold = (processResponse s config r).newState.threshold := by
  by_cases hA : s.attempts + 1 ≥ config.maxAttempts
  · simp [processResponse, hA]
  · cases r <;> simp [processResponse, hA] <;> split_ifs <;> simp [h]

theorem processResponse_continue_iff_no_threshold_witness :
    (processResponse (createStaircase DEFAULT_CONFIG).1 DEFAULT_CONFIG
      Response.heard).shouldContinue = true := by
  have h := processResponse_continue_iff_no_threshold (createStaircase DEFAULT_CONFIG).1
    DEFAULT_CONFIG Response.heard (by decide)
  have hth : (processResponse (createStaircase DEFAULT_CONFIG).1 DEFAULT_CONFIG
      Response.heard).threshold = none := by decide
  have := h.1
  rw [hth] at this
  simp at this
  simpa using this

/-- Claim C4: on a call not cut short by the max-attempts check, if the
updated reversal count has reached `maxReversals` the call terminates with
the just-updated level as threshold; otherwise it continues with no
threshold. -/
theorem processResponse_maxReversals (s : StaircaseState)
    (config : StaircaseConfig) (r : Response)
    (h : s.attempts + 1 < config.maxAttempts) :
    ((processResponse s config r).newState.reversals ≥ config.maxReversals →
      (processResponse s config r).shouldContinue = false ∧
      (processResponse s config r).threshold =
        some (processResponse s config r).newState.currentLevel) ∧
    ((processResponse s config r).newState.reversals < config.maxReversals →
      (processResponse s config r).shouldContinue = true ∧
      (processResponse s config r).threshold = none) := by
  have hA : ¬ (s.attempts + 1 ≥ config.maxAttempts) := by omega
  cases r <;> simp [processResponse, hA] <;> split_ifs <;> simp_all

theorem processResponse_maxReversals_witness :
    (processResponse (createStaircase DEFAULT_CONFIG).1 DEFAULT_CONFIG
      Response.notHeard).shouldContinue = true := by
  have h := processResponse_maxReversals (createStaircase DEFAULT_CONFIG).1
    DEFAULT_CONFIG Response.notHeard (by decide)
  exact (h.2 (by decide)).1

/-- The opposite response. -/
def otherResponse : Response → Response
  | Response.heard => Response.notHeard
  | Response.notHeard => Response.heard

/-- The strictly alternating response sequence of length `n` starting
with a given response. -/
def alternatingResponses : Response → Nat → List Response
  | _, 0 => []
  | r, n + 1 => r :: alternatingResponses (otherResponse r) n

/-- A state sitting at the default config's upper safety bound, moving
down, with a previous response recorded. -/
def boundaryState : StaircaseState :=
  { currentLevel := 0
    stepSize := 6
    direction := Direction.down
    reversals := 0
    attempts := 1
    lastResponse := some Response.heard
    threshold := none }

theorem otherResponse_otherResponse (r : Response) : otherResponse (otherResponse r) = r := by
  cases r <;> rfl

theorem responseDirection_otherResponse (r : Response) :
    responseDirection (otherResponse r) ≠ responseDirection r := by
  cases r <;> decide

/-- On a call not cut short by the max-attempts check, the reversal count
grows by one exactly when the response's direction differs from the held
direction and a previous response exists. -/
theorem processResponse_reversals_step (s : StaircaseState) (config : StaircaseConfig)
    (r : Response) (h : s.attempts + 1 < config.maxAttempts) :
    (processResponse s config r).newState.reversals =
      s.reversals +
        (if s.direction ≠ responseDirection r ∧ s.lastResponse ≠ none then 1 else 0) := by
  have hA : ¬ (s.attempts + 1 ≥ config.maxAttempts) := by omega
  cases r <;> simp [processResponse, responseDirection, hA] <;> split_ifs <;> simp_all

/-- On a call not cut short by the max-attempts check, the held direction
becomes the response's direction. -/
theorem processResponse_direction_step (s : StaircaseState) (config : StaircaseConfig)
    (r : Response) (h : s.attempts + 1 < config.maxAttempts) :
    (processResponse s config r).newState.direction = responseDirection r := by
  have hA : ¬ (s.attempts + 1 ≥ config.maxAttempts) := by omega
  cases r <;> simp [processResponse, responseDirection, hA] <;> split_ifs <;> rfl

/-- Every call records the response just given as the last response. -/
theorem processResponse_lastResponse_step (s : StaircaseState) (config : StaircaseConfig)
    (r : Response) :
    (processResponse s config r).newState.lastResponse = some r := by
  by_cases hA : s.attempts + 1 ≥ config.maxAttempts
  · simp [processResponse, hA]
  · cases r <;> simp [processResponse, hA] <;> split_ifs <;> rfl

/-- Every call increments the attempt counter by one. -/
theorem processResponse_attempts_step (s : StaircaseState) (config : StaircaseConfig)
    (r : Response) :
    (processResponse s config r).newState.attempts = s.attempts + 1 := by
  by_cases hA : s.attempts + 1 ≥ config.maxAttempts
  · simp [processResponse, hA]
  · cases r <;> simp [processResponse, hA] <;> split_ifs <;> rfl

/-- A run of identical responses never creates a reversal, as long as the
state satisfies the invariant that its direction already matches the
response, or no previous response exists, or the run is past the
max-attempts boundary. -/
theorem replicate_no_reversal_aux (config : StaircaseConfig) (r : Response) :
    ∀ (n : Nat) (s : StaircaseState), s.reversals = 0 →
      (s.direction = responseDirection r ∨ s.lastResponse = none ∨
        config.maxAttempts ≤ s.attempts) →
      (runStaircase config s (List.replicate n r)).reversals = 0
  | 0, s, h0, _ => h0
  | n + 1, s, h0, hinv => by
    rw [List.replicate_succ, runStaircase]
    by_cases hA : s.attempts + 1 ≥ config.maxAttempts
    · refine replicate_no_reversal_aux config r n _ ?_ ?_
      · simp [processResponse, hA, h0]
      · right; right
        rw [processResponse_attempts_step]
        omega
    · refine replicate_no_reversal_aux config r n _ ?_ ?_
      · rw [processResponse_reversals_step s config r (by omega)]
        rcases hinv with h | h | h
        · simp [h, h0]
        · simp [h, h0]
        · omega
      · exact Or.inl (processResponse_direction_step s config r (by omega))

/-- Alternating responses create one reversal per call, as long as the
run stays below the max-attempts boundary and the state's direction
matches its recorded last response. -/
theorem alternating_reversals_aux (config : StaircaseConfig) :
    ∀ (n : Nat) (s : StaircaseState) (r : Response),
      s.lastResponse = some r → s.direction = responseDirection r →
      s.attempts + n < config.maxAttempts →
      (runStaircase config s (alternatingResponses (otherResponse r) n)).reversals
        = s.reversals + n
  | 0, s, r, _, _, _ => by simp [alternatingResponses, runStaircase]
  | n + 1, s, r, hlast, hdir, hlt => by
    rw [alternatingResponses, runStaircase]
    have hstep : s.attempts + 1 < config.maxAttempts := by omega
    have hcond : s.direction ≠ responseDirection (otherResponse r) ∧
        s.lastResponse ≠ none := by
      refine ⟨?_, ?_⟩
      · rw [hdir]
        exact Ne.symm (responseDirection_otherResponse r)
      · rw [hlast]
        simp
    have hrev : (processResponse s config (otherResponse r)).newState.reversals
        = s.reversals + 1 := by
      rw [processResponse_reversals_step s config _ hstep, if_pos hcond]
    have IH := alternating_reversals_aux config n
      (processResponse s config (otherResponse r)).newState (otherResponse r)
      (processResponse_lastResponse_step s config _)
      (processResponse_direction_step s config _ hstep)
      (by rw [processResponse_attempts_step]; omega)
    rw [otherResponse_otherResponse r] at IH ⊢
    rw [IH, hrev]
    omega

/-- Claim C3: a reversal is counted exactly when the response's direction
differs from the held direction and a previous response exists; hence a
run of identical responses never increments the reversal count, a strictly
alternating run increments it on every call after the first (below the
max-attempts boundary), and at a clamped boundary a call can count a
reversal even though the level does not move. -/
theorem staircase_reversal_counting :
    (∀ (s : StaircaseState) (config : StaircaseConfig) (r : Response),
      s.attempts + 1 < config.maxAttempts →
      (processResponse s config r).newState.reversals =
        s.reversals +
          (if s.direction ≠ responseDirection r ∧ s.lastResponse ≠ none then 1 else 0)) ∧
    (∀ (config : StaircaseConfig) (r : Response) (n : Nat),
      (runStaircase config (createStaircase config).1 (List.replicate n r)).reversals = 0) ∧
    (∀ (config : StaircaseConfig) (r : Response) (n : Nat),
      1 ≤ n → n < config.maxAttempts →
      (runStaircase config (createStaircase config).1 (alternatingResponses r n)).reversals
        = n - 1) ∧
    ((processResponse boundaryState DEFAULT_CONFIG Response.notHeard).newState.reversals
        = boundaryState.reversals + 1 ∧
      (processResponse boundaryState DEFAULT_CONFIG Response.notHeard).newState.currentLevel
        = boundaryState.currentLevel) := by
  refine ⟨processResponse_reversals_step, ?_, ?_, by decide⟩
  · intro config r n
    refine replicate_no_reversal_aux config r n _ ?_ ?_
    · simp [createStaircase]
    · right; left
      simp [createStaircase]
  · intro config r n hn hlt
    obtain ⟨m, rfl⟩ : ∃ m, n = m + 1 := ⟨n - 1, by omega⟩
    rw [alternatingResponses, runStaircase]
    have h1 : (createStaircase config).1.attempts + 1 < config.maxAttempts := by
      simp [createStaircase]
      omega
    have hrev0 : (processResponse (createStaircase config).1 config r).newState.reversals
        = 0 := by
      rw [processResponse_reversals_step _ config r h1]
      simp [createStaircase]
    have IH := alternating_reversals_aux config m
      (processResponse (createStaircase config).1 config r).newState r
      (processResponse_lastResponse_step _ config r)
      (processResponse_direction_step _ config r h1)
      (by rw [processResponse_attempts_step]; simp [createStaircase]; omega)
    rw [IH, hrev0]
    omega

theorem staircase_reversal_counting_witness :
    (runStaircase DEFAULT_CONFIG (createStaircase DEFAULT_CONFIG).1
      (alternatingResponses Response.heard 5)).reversals = 4 := by
  have h := staircase_reversal_counting.2.2.1 DEFAULT_CONFIG Response.heard 5
    (by decide) (by decide)
  simpa using h

/-- Claim C6: with the default config, twenty consecutive not-heard
responses terminate exactly at the twentieth call (the nineteenth still
continues) with the threshold resolved to the max level of 0 dB, and the
level never exceeds the max level at any of the intermediate states. -/
theorem default_config_notHeard_scenario :
    (processResponse
        (runStaircase DEFAULT_CONFIG (createStaircase DEFAULT_CONFIG).1
          (List.replicate 19 Response.notHeard))
        DEFAULT_CONFIG Response.notHeard).shouldContinue = false ∧
    (processResponse
        (runStaircase DEFAULT_CONFIG (createStaircase DEFAULT_CONFIG).1
          (List.replicate 19 Response.notHeard))
        DEFAULT_CONFIG Response.notHeard).threshold = some DEFAULT_CONFIG.maxLevel ∧
    (processResponse
        (runStaircase DEFAULT_CONFIG (createStaircase DEFAULT_CONFIG).1
          (List.replicate 18 Response.notHeard))
        DEFAULT_CONFIG Response.notHeard).shouldContinue = true ∧
    ((List.range 21).all fun k =>
      decide ((runStaircase DEFAULT_CONFIG (createStaircase DEFAULT_CONFIG).1
        (List.replicate k Response.notHeard)).currentLevel ≤ DEFAULT_CONFIG.maxLevel))
      = true := by
  decide

/-- The reference gain used by the playback engine's `playTone`. -/
noncomputable def referenceGain : ℝ := 0.3

/-- The source's dB-to-linear-gain conversion in `playTone`:
`linearGain = referenceGain * 10 ^ (level / 20)`. -/
noncomputable def linearGain (level : ℝ) : ℝ :=
  referenceGain * (10 : ℝ) ^ (level / 20)

/-- Claim C7: the playback engine converts the requested dB level to a
linear gain by `gain = 0.3 * 10 ^ (level / 20)`; a level of 0 gives gain
0.3, a level of -20 gives gain 0.03, and a level of -60 gives gain
0.0003. -/
theorem linearGain_formula_values :
    (∀ level : ℝ, linearGain level = 0.3 * (10 : ℝ) ^ (level / 20)) ∧
    linearGain 0 = 0.3 ∧
    linearGain (-20) = 0.03 ∧
    linearGain (-60) = 0.0003 := by
  refine ⟨fun level => rfl, ?_, ?_, ?_⟩
  · simp [linearGain, referenceGain]
  · have h : ((-20 : ℝ) / 20) = ((-1 : ℤ) : ℝ) := by norm_num
    simp only [linearGain, referenceGain]
    rw [h, Real.rpow_intCast]
    norm_num
  · have h : ((-60 : ℝ) / 20) = ((-3 : ℤ) : ℝ) := by norm_num
    simp only [linearGain, referenceGain]
    rw [h, Real.rpow_intCast]
    norm_num

/-- A Web Audio oscillator node, as far as `stopAll` observes it: whether
it has already finished or been stopped. -/
structure OscillatorNode where
  stopped : Bool
deriving DecidableEq, Repr

/-- A Web Audio gain node, as far as `stopAll` observes it: its current
gain value and whether scheduled gain changes are pending. -/
structure GainNode where
  gainValue : ℚ
  hasScheduledValues : Bool
deriving DecidableEq, Repr

/-- The engine bookkeeping that `stopAll` touches: the arrays
`activeOscillators` and `activeGainNodes`. -/
structure AudioEngineState where
  activeOscillators : List OscillatorNode
  activeGainNodes : List GainNode
deriving DecidableEq, Repr

/-- The call `osc.stop()`: it fails when the oscillator has already
stopped. -/
def oscillatorStop (osc : OscillatorNode) : Except Unit OscillatorNode :=
  if osc.stopped then Except.error () else Except.ok { osc with stopped := true }

/-- The `try/catch` around `osc.stop()` in the source's `stopAll`: a
failing stop is swallowed, so the operation is total. -/
def tryOscillatorStop (osc : OscillatorNode) : OscillatorNode :=
  match oscillatorStop osc with
  | Except.ok next => next
  | Except.error _ => osc

/-- The gain-node loop body of the source's `stopAll`: cancel scheduled
values and set the gain to zero immediately. -/
def silenceGainNode (gain : GainNode) : GainNode :=
  { gain with gainValue := 0, hasScheduledValues := false }

/-- The source's `stopAll`: stop every active oscillator with failures
swallowed, silence every active gain node, then clear both arrays. The
affected nodes are returned next to the new engine state so the effect on
the audio graph stays observable. -/
def stopAll (engine : AudioEngineState) :
    AudioEngineState × List OscillatorNode × List GainNode :=
  let stoppedOscillators := engine.activeOscillators.map tryOscillatorStop
  let silencedGains := engine.activeGainNodes.map silenceGainNode
  ({ activeOscillators := [], activeGainNodes := [] }, stoppedOscillators, silencedGains)

/-- Claim C8: `stopAll` is a total function (every per-node failure is
swallowed); with zero active tones it is a no-op that leaves the engine
state unchanged; on any engine it leaves both active sets empty, every
affected oscillator ends stopped (also one that had already finished) and
every affected gain node ends at gain zero with its schedule
cancelled. -/
theorem stopAll_silences_everything (engine : AudioEngineState) :
    (stopAll engine).1.activeOscillators = [] ∧
    (stopAll engine).1.activeGainNodes = [] ∧
    stopAll { activeOscillators := [], activeGainNodes := [] } =
      ({ activeOscillators := [], activeGainNodes := [] }, [], []) ∧
    (∀ osc ∈ (stopAll engine).2.1, osc.stopped = true) ∧
    (∀ gain ∈ (stopAll engine).2.2,
      gain.gainValue = 0 ∧ gain.hasScheduledValues = false) := by
  refine ⟨rfl, rfl, rfl, ?_, ?_⟩
  · intro osc hosc
    simp only [stopAll, List.mem_map] at hosc
    obtain ⟨o, _, rfl⟩ := hosc
    by_cases h : o.stopped <;> simp [tryOscillatorStop, oscillatorStop, h]
  · intro gain hgain
    simp only [stopAll, List.mem_map] at hgain
    obtain ⟨g, _, rfl⟩ := hgain
    simp [silenceGainNode]

theorem stopAll_silences_everything_witness :
    (tryOscillatorStop { stopped := true }).stopped = true ∧
    (silenceGainNode { gainValue := 1, hasScheduledValues := true }).gainValue = 0 := by
  have h := stopAll_silences_everything
    { activeOscillators := [{ stopped := true }]
      activeGainNodes := [{ gainValue := 1, hasScheduledValues := true }] }
  refine ⟨?_, ?_⟩
  · exact h.2.2.2.1 _ (by decide)
  · exact (h.2.2.2.2 _ (by decide)).1
